import Mathlib

/-!
Verification of the pi_server camera-session core.

Shallow embedding of the session-lifecycle core of `app.py`, the MJPEG
frame loop of `camera.py`, and the watchdog, with theorems settling the
frozen claims about the natural-language specification.

Conventions of the embedding:
* `time.time()` values are rationals (`ℚ`).
* The Python dict `_stream_sessions` is an association list
  `List (String × Session)`; dict assignment updates in place or appends,
  dict deletion filters the key out (keys are unique by construction, so
  this matches `del`).
* The LED driver calls `led_on()` / `led_off()` set the physical
  indicator bit `led_phys`; the module-global `_led_state` tracking
  variable is modelled separately as `led_state`.  The driver is assumed
  not to raise (the `try/except` in `_force_led_on/off` only matters when
  it does).
* Python truthiness of an optional timestamp (`session["last_yield"]`)
  is `false` for `None` and for the float `0.0`.
-/

namespace PiServer

/-- One entry of `_stream_sessions` (app.py `_create_session`):
`created`, `last_yield`, `active`, `led_on`. -/
structure Session where
  created : ℚ
  last_yield : Option ℚ
  active : Bool
  led_on : Bool
  deriving DecidableEq, Repr

/-- Python truthiness of `session["last_yield"]`: `None` and `0.0` are falsy. -/
def pyTruthy : Option ℚ → Bool
  | none => false
  | some t => t ≠ 0

/-- Python truthiness of `request.args.get('session_id')`:
`None` and the empty string are falsy. -/
def pyTruthyStr : Option String → Bool
  | none => false
  | some s => s ≠ ""

/-- Dict lookup: first (unique) binding of the key. -/
def dictGet (k : String) : List (String × Session) → Option Session
  | [] => none
  | (k', v) :: rest => if k' = k then some v else dictGet k rest

/-- Dict assignment `d[k] = v`: overwrite in place if present, else append. -/
def dictSet (k : String) (v : Session) : List (String × Session) → List (String × Session)
  | [] => [(k, v)]
  | (k', v') :: rest => if k' = k then (k, v) :: rest else (k', v') :: dictSet k v rest

/-- Dict deletion `del d[k]` (keys are unique, so filtering the key out
is the same as deleting the single binding). -/
def dictDel (k : String) (d : List (String × Session)) : List (String × Session) :=
  d.filter (fun p => p.1 ≠ k)

/-- The mutable module state of `app.py` that the session core touches:
the `_stream_sessions` table, the `_led_state` tracking variable, and the
physical indicator driven by `led_on()` / `led_off()`. -/
structure AppState where
  sessions : List (String × Session)
  led_state : Bool
  led_phys : Bool
  deriving DecidableEq, Repr

/-- `_force_led_off` (app.py:126): `led_off()` then `_led_state = False`. -/
def force_led_off (st : AppState) : AppState :=
  { st with led_phys := false, led_state := false }

/-- `_force_led_on` (app.py:135): `led_on()` then `_led_state = True`. -/
def force_led_on (st : AppState) : AppState :=
  { st with led_phys := true, led_state := true }

/-- `_create_session` (app.py:98): insert a fresh session with
`created = now`, `last_yield = None`, `active = True`, `led_on = False`.
The fresh uuid is passed in as `sid`. -/
def create_session (sid : String) (now : ℚ) (st : AppState) : AppState :=
  let s : Session := { created := now, last_yield := none, active := true, led_on := false }
  { st with sessions := dictSet sid s st.sessions }

/-- `_stop_session` (app.py:111), the body under `with _stream_lock`:
if the id is present, flip `active` to false, force the LED off when the
session held `led_on`, delete the entry; then in all cases
`_force_led_off()` (the `# Always turn off LED when stopping a session`
line at app.py:124). -/
def stop_session (sid : String) (st : AppState) : AppState :=
  match dictGet sid st.sessions with
  | some s =>
      let st1 : AppState :=
        { st with sessions := dictSet sid { s with active := false } st.sessions }
      let st2 : AppState := if s.led_on then force_led_off st1 else st1
      let st3 : AppState := { st2 with sessions := dictDel sid st2.sessions }
      force_led_off st3
  | none => force_led_off st

/-- `_stream_sessions[sid]["led_on"] = True` (app.py:239); only reached
when `sid` is present, so the absent case is inert. -/
def set_led_on (sid : String) (st : AppState) : AppState :=
  match dictGet sid st.sessions with
  | some s => { st with sessions := dictSet sid { s with led_on := true } st.sessions }
  | none => st

/-- `_stream_sessions[sid]["active"] = True` (app.py:234); only reached
after the `in` check, so the absent case is inert. -/
def set_active_true (sid : String) (st : AppState) : AppState :=
  match dictGet sid st.sessions with
  | some s => { st with sessions := dictSet sid { s with active := true } st.sessions }
  | none => st

/-- Outcome of the `/camera/stream` handler prefix. -/
inductive StreamResp where
  | streaming (sid : String)
  | invalidSession
  deriving DecidableEq, Repr

/-- The registry-mutating prefix of the `/camera/stream` handler
(app.py:223-239): read the optional `session_id` argument; if falsy
(absent or empty) create a fresh session with id `freshId`; otherwise
resume it when present in `_stream_sessions` and reject with a 400
(`invalidSession`) when not.  On the non-rejecting paths the handler then
calls `_force_led_on()` and sets the session's `led_on` flag. -/
def camera_stream (arg : Option String) (freshId : String) (now : ℚ)
    (st : AppState) : StreamResp × AppState :=
  if pyTruthyStr arg = false then
    let sid := freshId
    let st1 := create_session sid now st
    let st2 := force_led_on st1
    let st3 := set_led_on sid st2
    (StreamResp.streaming sid, st3)
  else
    let sid := arg.getD ""
    match dictGet sid st.sessions with
    | none => (StreamResp.invalidSession, st)
    | some _ =>
        let st1 := set_active_true sid st
        let st2 := force_led_on st1
        let st3 := set_led_on sid st2
        (StreamResp.streaming sid, st3)

/-- `any(s.get("led_on", False) for s in _stream_sessions.values())`
(app.py:147, app.py:316): does any registered session hold an LED claim? -/
def any_led_claim (st : AppState) : Bool :=
  st.sessions.any (fun p => p.2.led_on)

/-! ## The MJPEG frame loop (`camera.py`) -/

/-- Byte strings (`bytes`) as lists of byte values. -/
abbrev ByteSeq := List Nat

/-- The bytes of an ASCII string literal. -/
def strBytes (s : String) : ByteSeq :=
  s.data.map Char.toNat

/-- `boundary = b"--frame"` (camera.py:35). -/
def boundary : ByteSeq := strBytes "--frame"

/-- The yielded part (camera.py:43-46):
`boundary + b"\r\nContent-Type: image/jpeg\r\nContent-Length: "
+ str(len(jpg)).encode() + b"\r\n\r\n" + jpg + b"\r\n"`. -/
def mjpeg_part (jpg : ByteSeq) : ByteSeq :=
  boundary ++ strBytes "\r\nContent-Type: image/jpeg\r\nContent-Length: "
    ++ strBytes (toString jpg.length) ++ strBytes "\r\n\r\n" ++ jpg ++ strBytes "\r\n"

/-- `arr = arr[..., ::-1]` (camera.py:40): flip the channel axis of every
pixel, here a raw image is its flattened list of (b, g, r) pixels. -/
def bgr_to_rgb (arr : List (Nat × Nat × Nat)) : List (Nat × Nat × Nat) :=
  arr.map (fun p => (p.2.2, p.2.1, p.1))

/-- The external collaborators the frame loop calls, as oracles:
`cam.capture_array()` on its k-th call (may raise, modelled as
`Except.error`), `encode_jpeg` (PIL, may raise), and the successive
readings of `time.time()`. -/
structure CamEnv where
  capture : Nat → Except String (List (Nat × Nat × Nat))
  encode : List (Nat × Nat × Nat) → Nat → Except String ByteSeq
  now : Nat → ℚ

/-- Observable state of one run of the `mjpeg_generator` loop:
the pacing deadline `next_time`, how many `time.time()` readings were
consumed, the parts yielded so far, the positive sleeps performed, and
how many times `on_frame()` was invoked. -/
structure PaceState where
  next_time : ℚ
  clock_idx : Nat
  frames : List ByteSeq
  sleeps : List ℚ
  heartbeats : Nat
  deriving DecidableEq, Repr

/-- The tail of one loop iteration (camera.py:42-50) after a successful
capture and encode: `on_frame()`, yield the part, `next_time +=
frame_interval`, and `time.sleep(next_time - time.time())` when that
difference is positive (`t` is the `time.time()` reading). -/
def pace_step (st : PaceState) (jpg : ByteSeq) (frame_interval : ℚ) (t : ℚ) : PaceState :=
  let st1 : PaceState := { st with
    frames := st.frames ++ [mjpeg_part jpg],
    heartbeats := st.heartbeats + 1 }
  let next := st1.next_time + frame_interval
  let sleep_time := next - t
  { st1 with
    next_time := next,
    clock_idx := st1.clock_idx + 1,
    sleeps := if sleep_time > 0 then st1.sleeps ++ [sleep_time] else st1.sleeps }

/-- The `while True` body of `mjpeg_generator` (camera.py:38-50), run for
`fuel` iterations (the loop itself has no exit condition; `fuel` is the
observation horizon).  An exception from capture or encode propagates out
of the generator, ending the run with that error and the parts yielded so
far.  Each iteration: capture, channel-flip, encode, then `pace_step`. -/
def mjpeg_loop (env : CamEnv) (frame_interval : ℚ) (quality : Nat) :
    Nat → Nat → PaceState → PaceState × Option String
  | 0, _, st => (st, none)
  | fuel + 1, k, st =>
      match env.capture k with
      | Except.error e => (st, some e)
      | Except.ok raw =>
          match env.encode (bgr_to_rgb raw) quality with
          | Except.error e => (st, some e)
          | Except.ok jpg =>
              mjpeg_loop env frame_interval quality fuel (k + 1)
                (pace_step st jpg frame_interval (env.now st.clock_idx))

/-- `mjpeg_generator(target_fps, quality, on_frame)` (camera.py:32-50):
`frame_interval = 1.0 / float(target_fps)` and
`next_time = time.time()` are computed once, then the loop runs. -/
def mjpeg_run (env : CamEnv) (target_fps : ℚ) (quality : Nat) (fuel : Nat) :
    PaceState × Option String :=
  let st0 : PaceState :=
    { next_time := env.now 0, clock_idx := 1, frames := [], sleeps := [], heartbeats := 0 }
  mjpeg_loop env (1 / target_fps) quality fuel 0 st0

/-! ## The stream generator `gen()` (app.py:241-268) -/

/-- The parameter list of `def mjpeg_generator(target_fps=8, quality=80,
on_frame=lambda: None)` (camera.py:32). -/
def mjpeg_generator_params : List String :=
  ["target_fps", "quality", "on_frame"]

/-- The keyword arguments `gen()` passes to `mjpeg_generator`
(app.py:247-252). -/
def camera_stream_kwargs : List String :=
  ["target_fps", "quality", "on_frame", "should_continue"]

/-- Python keyword-argument binding: a keyword argument that matches no
parameter name raises `TypeError` at the call, before the generator body
runs. -/
def bind_kwargs (params kwargs : List String) : Except String Unit :=
  match kwargs.find? (fun kw => !(params.contains kw)) with
  | some kw => Except.error ("TypeError: unexpected keyword argument " ++ kw)
  | none => Except.ok ()

/-- How the `gen()` generator in `camera_stream` ended. -/
inductive GenExit where
  | typeErr (msg : String)
  | loopErr (msg : String)
  | clientGone
  deriving DecidableEq, Repr

/-- `gen()` (app.py:241-268): calling
`mjpeg_generator(target_fps=8, quality=80, on_frame=..., should_continue=...)`
binds the keyword arguments first; a `TypeError` there is caught by the
`except Exception` clause (app.py:264).  Were the binding to succeed, the
loop would run (an exception escaping it is caught at app.py:261/264; the
fuel running out stands for the client going away, app.py:256-259).  On
every path the `finally` clause runs `_stop_session(session_id)`
(app.py:266-268).  Returns the frames delivered to the viewer, how the
generator ended, and the final application state. -/
def run_gen (env : CamEnv) (fuel : Nat) (sid : String) (st : AppState) :
    (List ByteSeq × GenExit) × AppState :=
  match bind_kwargs mjpeg_generator_params camera_stream_kwargs with
  | Except.error e => (([], GenExit.typeErr e), stop_session sid st)
  | Except.ok _ =>
      match mjpeg_run env 8 80 fuel with
      | (ps, some e) => ((ps.frames, GenExit.loopErr e), stop_session sid st)
      | (ps, none) => ((ps.frames, GenExit.clientGone), stop_session sid st)

/-! ## The watchdog (`app.py:164-197`)

`_cleanup_stale_sessions` runs its scan inside `with _stream_lock:`;
`_stop_session` itself opens `with _stream_lock:`.  `threading.Lock` is
not reentrant, so acquiring it while it is already held blocks forever.
`RunResult.blocked` marks an execution that never completes. -/

/-- Result of running code that may block forever on the lock. -/
inductive RunResult (α : Type) where
  | ok (a : α)
  | blocked
  deriving DecidableEq, Repr

/-- A call to `_stop_session` from a context that may already hold
`_stream_lock`: the `with _stream_lock:` at app.py:114 blocks forever if
the caller already holds the lock, else the body runs. -/
def stop_session_from (lockHeld : Bool) (sid : String) (st : AppState) :
    RunResult AppState :=
  if lockHeld then RunResult.blocked else RunResult.ok (stop_session sid st)

/-- First reap test (app.py:173):
`session["last_yield"] is None and (current_time - session["created"] > 5.0)`. -/
def never_yielded_reap (now : ℚ) (s : Session) : Bool :=
  s.last_yield.isNone && decide (now - s.created > 5)

/-- Second reap test (app.py:178):
`session["last_yield"] and (current_time - session["last_yield"] > 3.0)`. -/
def stalled_reap (now : ℚ) (s : Session) : Bool :=
  pyTruthy s.last_yield && decide (now - s.last_yield.getD 0 > 3)

/-- The scan loop of `_cleanup_stale_sessions` (app.py:170-181), entered
with `_stream_lock` held: for each session, if it is `active` and one of
the reap tests fires, call `_stop_session` — which re-acquires the held
lock, so the whole scan blocks there.  (In the model the iteration list
is the table at entry; `_stop_session` never gets to mutate it.) -/
def cleanup_scan (now : ℚ) : List (String × Session) → AppState → List String →
    RunResult (AppState × List String)
  | [], st, stale => RunResult.ok (st, stale)
  | (sid, s) :: rest, st, stale =>
      if s.active then
        if never_yielded_reap now s then
          match stop_session_from true sid st with
          | RunResult.blocked => RunResult.blocked
          | RunResult.ok st1 => cleanup_scan now rest st1 (stale ++ [sid])
        else if stalled_reap now s then
          match stop_session_from true sid st with
          | RunResult.blocked => RunResult.blocked
          | RunResult.ok st1 => cleanup_scan now rest st1 (stale ++ [sid])
        else cleanup_scan now rest st stale
      else cleanup_scan now rest st stale

/-- `_cleanup_stale_sessions(now)` (app.py:164-191): the scan, then —
still under the lock — `del _stream_sessions[sid]` for each collected id
(guarded by an `in` check, so deleting an absent id is inert) and a
`_force_led_off()` when any session was collected. -/
def cleanup_stale_sessions (now : ℚ) (st : AppState) : RunResult AppState :=
  match cleanup_scan now st.sessions st [] with
  | RunResult.blocked => RunResult.blocked
  | RunResult.ok (st1, stale) =>
      let st2 : AppState :=
        { st1 with sessions := stale.foldl (fun d sid => dictDel sid d) st1.sessions }
      let st3 : AppState := if stale.isEmpty then st2 else force_led_off st2
      RunResult.ok st3

/-! ## Specification-side definitions (for refinement-style claims) -/

/-- Modelled from the spec wording of the frame delivery format (§6): a
boundary marker, a `Content-Type: image/jpeg` header, a
`Content-Length: n` header whose decimal value is the exact encoded byte
count, a blank line, the raw encoded bytes, and a trailing line break. -/
def spec_part (jpg : ByteSeq) : ByteSeq :=
  strBytes "--frame" ++ strBytes "\r\n"
    ++ strBytes "Content-Type: image/jpeg" ++ strBytes "\r\n"
    ++ strBytes "Content-Length: " ++ strBytes (toString jpg.length) ++ strBytes "\r\n"
    ++ strBytes "\r\n" ++ jpg ++ strBytes "\r\n"

/-- The reap decision of the scan, as one test: the session is `active`
and one of the two staleness tests (app.py:173, app.py:178) fires. -/
def reapable (now : ℚ) (s : Session) : Bool :=
  s.active && (never_yielded_reap now s || stalled_reap now s)

/-! ## Helper lemmas -/

theorem dictGet_dictDel_self (k : String) (d : List (String × Session)) :
    dictGet k (dictDel k d) = none := by
  induction d with
  | nil => rfl
  | cons p rest ih =>
      by_cases h : p.1 = k
      · simpa [dictDel, List.filter_cons, h] using ih
      · simpa [dictDel, List.filter_cons, h, dictGet] using ih

theorem sessions_force_led_off (st : AppState) :
    (force_led_off st).sessions = st.sessions := rfl

theorem dictGet_stop_session (sid : String) (st : AppState) :
    dictGet sid (stop_session sid st).sessions = none := by
  unfold stop_session
  cases h : dictGet sid st.sessions with
  | none => simpa [force_led_off] using h
  | some s =>
      by_cases hl : s.led_on <;>
        simp [force_led_off, hl, dictGet_dictDel_self]

theorem cleanup_scan_blocked (now : ℚ) :
    ∀ (l : List (String × Session)) (st : AppState) (acc : List String),
    (∃ p ∈ l, reapable now p.2 = true) →
    cleanup_scan now l st acc = RunResult.blocked := by
  intro l
  induction l with
  | nil =>
      intro st acc h
      simp at h
  | cons p rest ih =>
      intro st acc h
      obtain ⟨sid, s⟩ := p
      by_cases ha : s.active
      · by_cases h1 : never_yielded_reap now s
        · simp [cleanup_scan, ha, h1, stop_session_from]
        · by_cases h2 : stalled_reap now s
          · simp [cleanup_scan, ha, h1, h2, stop_session_from]
          · have hq : ∃ q ∈ rest, reapable now q.2 = true := by
              obtain ⟨q, hq, hr⟩ := h
              rcases List.mem_cons.mp hq with hq | hq
              · subst hq
                simp [reapable, ha, h1, h2] at hr
              · exact ⟨q, hq, hr⟩
            simpa [cleanup_scan, ha, h1, h2] using ih st acc hq
      · have hq : ∃ q ∈ rest, reapable now q.2 = true := by
          obtain ⟨q, hq, hr⟩ := h
          rcases List.mem_cons.mp hq with hq | hq
          · subst hq
            simp [reapable, ha] at hr
          · exact ⟨q, hq, hr⟩
        simpa [cleanup_scan, ha] using ih st acc hq

/-! ## Claim theorems -/

/-- Scenario state for C1: two overlapping sessions "C" and "D", both
created through the `/camera/stream` handler (so both hold an LED claim),
then `_stop_session("C")`. -/
def overlap_after_stop_C : AppState :=
  let st0 : AppState := { sessions := [], led_state := false, led_phys := false }
  let st1 := (camera_stream none "C" 0 st0).2
  let st2 := (camera_stream none "D" 0 st1).2
  stop_session "C" st2

/-- C1: the claim says that with two overlapping sessions C and D both
holding LED claims, stopping C alone leaves the physical indicator on
because D still holds a claim.  The code violates this: the unconditional
`_force_led_off()` at the end of `_stop_session` (app.py:124) turns the
indicator off even though D is still registered with `led_on = true`, so
the invariant "indicator on iff some registered session holds a claim"
fails after stopping C. -/
theorem led_claim_invariant_violated :
    any_led_claim overlap_after_stop_C = true
    ∧ overlap_after_stop_C.led_phys = false
    ∧ ¬(overlap_after_stop_C.led_phys = true ↔ any_led_claim overlap_after_stop_C = true) := by
  decide

/-- Scenario state for C5: one registered session "X" holding the LED
claim, indicator on. -/
def single_session_led_on : AppState :=
  { sessions := [("X", { created := 0, last_yield := some 1, active := true, led_on := true })],
    led_state := true, led_phys := true }

/-- C5: the claim says `stop(id)` on an absent id is a silent no-op that
leaves the registry, every other session's LED claim, and the physical
indicator unchanged.  The code violates the indicator part: `_stop_session`
falls through to the unconditional `_force_led_off()` (app.py:124), so
stopping the absent id "Y" while "X" still streams leaves the registry
unchanged but turns the physical indicator off. -/
theorem stop_absent_id_forces_led_off :
    dictGet "Y" single_session_led_on.sessions = none
    ∧ (stop_session "Y" single_session_led_on).sessions = single_session_led_on.sessions
    ∧ single_session_led_on.led_phys = true
    ∧ (stop_session "Y" single_session_led_on).led_phys = false := by
  decide

/-- C3: every `/camera/stream` request's streaming generator fails on its
first step: binding the `should_continue` keyword argument against
`mjpeg_generator`'s parameters raises `TypeError`, the `except Exception`
clause catches it, the `finally` clause stops and removes the session,
and zero frames are delivered to the viewer. -/
theorem gen_typeerror_stops_session (env : CamEnv) (fuel : Nat) (sid : String)
    (st : AppState) :
    run_gen env fuel sid st
      = (([], GenExit.typeErr "TypeError: unexpected keyword argument should_continue"),
          stop_session sid st)
    ∧ dictGet sid (run_gen env fuel sid st).2.sessions = none := by
  have hb : bind_kwargs mjpeg_generator_params camera_stream_kwargs
      = Except.error "TypeError: unexpected keyword argument should_continue" := rfl
  refine ⟨?_, ?_⟩ <;> simp [run_gen, hb, dictGet_stop_session]

/-- C4: whenever the watchdog scan finds any session meeting a reap test,
the reap path never completes: `_cleanup_stale_sessions` already holds
the non-reentrant `_stream_lock` when it calls `_stop_session`, which
tries to re-acquire the same lock, so the first reap attempt blocks
forever. -/
theorem watchdog_reap_blocks (now : ℚ) (st : AppState)
    (h : ∃ p ∈ st.sessions, reapable now p.2 = true) :
    cleanup_stale_sessions now st = RunResult.blocked := by
  unfold cleanup_stale_sessions
  rw [cleanup_scan_blocked now st.sessions st [] h]

/-- Scenario state for the C4 witness: one active session whose last
yield is 9 time units old. -/
def stalled_session_state : AppState :=
  { sessions := [("a", { created := 0, last_yield := some 1, active := true, led_on := true })],
    led_state := true, led_phys := true }

theorem reapable_stalled_example :
    reapable 10 { created := 0, last_yield := some 1, active := true, led_on := true } = true := by
  simp [reapable, never_yielded_reap, stalled_reap, pyTruthy]
  norm_num

theorem watchdog_reap_blocks_witness :
    (∃ p ∈ stalled_session_state.sessions, reapable 10 p.2 = true)
    ∧ cleanup_stale_sessions 10 stalled_session_state = RunResult.blocked :=
  ⟨⟨_, List.mem_cons_self _ _, reapable_stalled_example⟩,
    watchdog_reap_blocks 10 stalled_session_state
      ⟨_, List.mem_cons_self _ _, reapable_stalled_example⟩⟩

/-- Scenario state for C7: one session "b" created at time 0 that never
heartbeats. -/
def never_heartbeat_state : AppState :=
  { sessions := [("b", { created := 0, last_yield := none, active := true, led_on := true })],
    led_state := true, led_phys := true }

/-- C7: the claim's reap condition does fire for a session that never
heartbeats once `now - created_at > 5` (first conjunct), but the claimed
consequence fails: at the poll at time 6 the reap deadlocks on
`_stream_lock` (`RunResult.blocked`), so the session is never removed
from the registry — it is not absent within `T_start + P` of creation. -/
theorem stale_session_not_reaped :
    never_yielded_reap 6
        { created := 0, last_yield := none, active := true, led_on := true } = true
    ∧ cleanup_stale_sessions 6 never_heartbeat_state = RunResult.blocked := by
  have h1 : never_yielded_reap 6
      { created := 0, last_yield := none, active := true, led_on := true } = true := by
    simp [never_yielded_reap]
    norm_num
  refine ⟨h1, ?_⟩
  simp [cleanup_stale_sessions, never_heartbeat_state, cleanup_scan, h1, stop_session_from]

/-- Initial state for the C8 counterexample: empty registry, indicator off. -/
def idle_state : AppState := { sessions := [], led_state := false, led_phys := false }

/-- C8 counterexample: a stream request carrying the resume id `""` — an
id never present in the registry — is not rejected: `if not session_id`
(app.py:227) treats the empty string as absent, so the handler creates a
fresh session and turns the indicator on, mutating both the registry and
the LED. -/
theorem empty_resume_id_not_rejected :
    dictGet "" idle_state.sessions = none
    ∧ (camera_stream (some "") "F" 0 idle_state).1 = StreamResp.streaming "F"
    ∧ (camera_stream (some "") "F" 0 idle_state).2.sessions ≠ idle_state.sessions
    ∧ (camera_stream (some "") "F" 0 idle_state).2.led_phys = true := by
  decide

/-- C8 (amended): for every stream request carrying a NON-EMPTY resume id
that is not present in the registry, the request is rejected with a
client-visible error (HTTP 400, app.py:232-233) and the state — registry
contents and indicator — is returned exactly as it was: no session is
created or mutated and the LED is not toggled. -/
theorem resume_unknown_id_rejected (sid : String) (hne : sid ≠ "")
    (fresh : String) (now : ℚ) (st : AppState)
    (habs : dictGet sid st.sessions = none) :
    camera_stream (some sid) fresh now st = (StreamResp.invalidSession, st) := by
  have ht : pyTruthyStr (some sid) = true := by simp [pyTruthyStr, hne]
  simp [camera_stream, ht, habs]

/-- Scenario state for the C8 witness: one unrelated session "W". -/
def unknown_resume_state : AppState :=
  { sessions := [("W", { created := 0, last_yield := none, active := true, led_on := true })],
    led_state := true, led_phys := true }

theorem resume_unknown_id_rejected_witness :
    dictGet "zzz" unknown_resume_state.sessions = none
    ∧ camera_stream (some "zzz") "F" 0 unknown_resume_state
        = (StreamResp.invalidSession, unknown_resume_state) :=
  ⟨by decide,
    resume_unknown_id_rejected "zzz" (by decide) "F" 0 unknown_resume_state (by decide)⟩

/-! ## Lemmas about the frame loop -/

theorem pace_step_frames (st : PaceState) (jpg : ByteSeq) (fi t : ℚ) :
    (pace_step st jpg fi t).frames = st.frames ++ [mjpeg_part jpg] := rfl

theorem pace_step_next_time (st : PaceState) (jpg : ByteSeq) (fi t : ℚ) :
    (pace_step st jpg fi t).next_time = st.next_time + fi := rfl

theorem pace_step_sleeps (st : PaceState) (jpg : ByteSeq) (fi t : ℚ) (x : ℚ)
    (hx : x ∈ (pace_step st jpg fi t).sleeps) : x ∈ st.sleeps ∨ 0 < x := by
  unfold pace_step at hx
  by_cases h : st.next_time + fi - t > 0
  · simp [h] at hx
    rcases hx with hx | hx
    · exact Or.inl hx
    · subst hx
      exact Or.inr h
  · simp [h] at hx
    exact Or.inl hx

/-- Master lemma for a run of the loop in which every capture and encode
succeeds: no error escapes, the parts accumulate one `mjpeg_part` per
iteration, `next_time` advances by exactly `fi` per iteration, and every
performed sleep is positive. -/
theorem mjpeg_loop_ok (env : CamEnv) (fi : ℚ) (q : Nat)
    (raws : Nat → List (Nat × Nat × Nat)) (jpgs : Nat → ByteSeq) :
    ∀ (n k : Nat) (st : PaceState),
    (∀ j, j < n → env.capture (k + j) = Except.ok (raws (k + j))
        ∧ env.encode (bgr_to_rgb (raws (k + j))) q = Except.ok (jpgs (k + j))) →
    (mjpeg_loop env fi q n k st).2 = none
    ∧ (mjpeg_loop env fi q n k st).1.frames
        = st.frames ++ (List.range n).map (fun j => mjpeg_part (jpgs (k + j)))
    ∧ (mjpeg_loop env fi q n k st).1.next_time = st.next_time + n * fi
    ∧ (∀ x ∈ (mjpeg_loop env fi q n k st).1.sleeps, x ∈ st.sleeps ∨ 0 < x) := by
  intro n
  induction n with
  | zero =>
      intro k st h
      simp only [mjpeg_loop, List.range_zero, List.map_nil, List.append_nil, Nat.cast_zero,
        zero_mul, add_zero]
      exact ⟨trivial, trivial, trivial, fun x hx => Or.inl hx⟩
  | succ m ih =>
      intro k st h
      obtain ⟨hc, he⟩ := h 0 (Nat.succ_pos m)
      rw [Nat.add_zero] at hc he
      have hstep : mjpeg_loop env fi q (m + 1) k st
          = mjpeg_loop env fi q m (k + 1) (pace_step st (jpgs k) fi (env.now st.clock_idx)) := by
        simp [mjpeg_loop, hc, he]
      have h' : ∀ j, j < m → env.capture (k + 1 + j) = Except.ok (raws (k + 1 + j))
          ∧ env.encode (bgr_to_rgb (raws (k + 1 + j))) q = Except.ok (jpgs (k + 1 + j)) := by
        intro j hj
        have hh := h (j + 1) (Nat.succ_lt_succ hj)
        have heq : k + (j + 1) = k + 1 + j := by omega
        rwa [heq] at hh
      obtain ⟨ih1, ih2, ih3, ih4⟩ :=
        ih (k + 1) (pace_step st (jpgs k) fi (env.now st.clock_idx)) h'
      rw [hstep]
      refine ⟨ih1, ?_, ?_, ?_⟩
      · have hmap : List.map (fun j => mjpeg_part (jpgs (k + j))) (List.range (m + 1))
            = mjpeg_part (jpgs k)
              :: List.map (fun j => mjpeg_part (jpgs (k + 1 + j))) (List.range m) := by
          rw [List.range_succ_eq_map, List.map_cons, List.map_map]
          congr 1
          apply List.map_congr_left
          intro j _
          show mjpeg_part (jpgs (k + Nat.succ j)) = mjpeg_part (jpgs (k + 1 + j))
          have heq : k + Nat.succ j = k + 1 + j := by omega
          rw [heq]
        rw [ih2, pace_step_frames, hmap, List.append_assoc, List.singleton_append]
      · rw [ih3, pace_step_next_time]
        push_cast
        ring
      · intro x hx
        rcases ih4 x hx with hmem | hpos
        · rcases pace_step_sleeps st (jpgs k) fi (env.now st.clock_idx) x hmem with hm | hp
          · exact Or.inl hm
          · exact Or.inr hp
        · exact Or.inr hpos

/-- Master lemma for a run in which the first `j` iterations succeed and
iteration `j` raises (in capture, or in encode after a successful
capture): the exception propagates out of the loop immediately, with
exactly the `j` earlier parts yielded. -/
theorem mjpeg_loop_fail (env : CamEnv) (fi : ℚ) (q : Nat)
    (raws : Nat → List (Nat × Nat × Nat)) (jpgs : Nat → ByteSeq) :
    ∀ (j n k : Nat) (st : PaceState) (e : String),
    j < n →
    (∀ i, i < j → env.capture (k + i) = Except.ok (raws (k + i))
        ∧ env.encode (bgr_to_rgb (raws (k + i))) q = Except.ok (jpgs (k + i))) →
    (env.capture (k + j) = Except.error e
      ∨ ∃ raw, env.capture (k + j) = Except.ok raw
          ∧ env.encode (bgr_to_rgb raw) q = Except.error e) →
    (mjpeg_loop env fi q n k st).2 = some e
    ∧ ((mjpeg_loop env fi q n k st).1.frames).length = st.frames.length + j := by
  intro j
  induction j with
  | zero =>
      intro n k st e hn hpre hfail
      obtain ⟨m, rfl⟩ : ∃ m, n = m + 1 := ⟨n - 1, by omega⟩
      rcases hfail with hc | ⟨raw, hc, he⟩
      · rw [Nat.add_zero] at hc
        simp [mjpeg_loop, hc]
      · rw [Nat.add_zero] at hc
        simp [mjpeg_loop, hc, he]
  | succ i ih =>
      intro n k st e hn hpre hfail
      obtain ⟨m, rfl⟩ : ∃ m, n = m + 1 := ⟨n - 1, by omega⟩
      obtain ⟨hc, he⟩ := hpre 0 (Nat.succ_pos i)
      rw [Nat.add_zero] at hc he
      have hstep : mjpeg_loop env fi q (m + 1) k st
          = mjpeg_loop env fi q m (k + 1) (pace_step st (jpgs k) fi (env.now st.clock_idx)) := by
        simp [mjpeg_loop, hc, he]
      have hpre' : ∀ i', i' < i → env.capture (k + 1 + i') = Except.ok (raws (k + 1 + i'))
          ∧ env.encode (bgr_to_rgb (raws (k + 1 + i'))) q = Except.ok (jpgs (k + 1 + i')) := by
        intro i' hi
        have hh := hpre (i' + 1) (Nat.succ_lt_succ hi)
        have heq : k + (i' + 1) = k + 1 + i' := by omega
        rwa [heq] at hh
      have hfail' : env.capture (k + 1 + i) = Except.error e
          ∨ ∃ raw, env.capture (k + 1 + i) = Except.ok raw
              ∧ env.encode (bgr_to_rgb raw) q = Except.error e := by
        have heq : k + (i + 1) = k + 1 + i := by omega
        rwa [heq] at hfail
      obtain ⟨ih1, ih2⟩ := ih m (k + 1) (pace_step st (jpgs k) fi (env.now st.clock_idx)) e
        (by omega) hpre' hfail'
      rw [hstep]
      refine ⟨ih1, ?_⟩
      rw [ih2, pace_step_frames, List.length_append]
      simp
      omega

/-- `mjpeg_part` and the specification's decomposition of a part agree
byte for byte. -/
theorem mjpeg_part_eq_spec_part (jpg : ByteSeq) : mjpeg_part jpg = spec_part jpg := by
  simp only [mjpeg_part, spec_part, boundary, List.append_assoc]
  rfl

/-- C2: the claim says the loop re-checks the session's active predicate
before each capture and again before delivery, so a stop request makes it
exit within about one frame.  The code violates this: the loop body of
`mjpeg_generator` (camera.py:38-50) is `while True` with no active test
at all (no predicate is even passed in — the handler's attempt to pass
`should_continue` raises `TypeError`), so over any horizon `n` the loop
performs all `n` captures and yields all `n` parts, whatever any session
state says, and never exits on its own. -/
theorem frame_loop_ignores_active (env : CamEnv) (fps : ℚ) (q : Nat) (n : Nat)
    (raws : Nat → List (Nat × Nat × Nat)) (jpgs : Nat → ByteSeq)
    (h : ∀ j, j < n → env.capture j = Except.ok (raws j)
        ∧ env.encode (bgr_to_rgb (raws j)) q = Except.ok (jpgs j)) :
    ((mjpeg_run env fps q n).1.frames).length = n
    ∧ (mjpeg_run env fps q n).2 = none := by
  have h0 : ∀ j, j < n → env.capture (0 + j) = Except.ok (raws (0 + j))
      ∧ env.encode (bgr_to_rgb (raws (0 + j))) q = Except.ok (jpgs (0 + j)) := by
    intro j hj
    simpa using h j hj
  obtain ⟨h1, h2, -, -⟩ := mjpeg_loop_ok env (1 / fps) q raws jpgs n 0
    { next_time := env.now 0, clock_idx := 1, frames := [], sleeps := [], heartbeats := 0 } h0
  simp only [mjpeg_run]
  refine ⟨?_, h1⟩
  rw [h2]
  simp

/-- An environment in which every capture and encode succeeds. -/
def env_ok : CamEnv :=
  { capture := fun _ => Except.ok [], encode := fun _ _ => Except.ok [], now := fun _ => 0 }

theorem frame_loop_ignores_active_witness :
    ((mjpeg_run env_ok 8 80 5).1.frames).length = 5
    ∧ (mjpeg_run env_ok 8 80 5).2 = none :=
  frame_loop_ignores_active env_ok 8 80 5 (fun _ => []) (fun _ => [])
    (fun _ _ => ⟨rfl, rfl⟩)

/-- C9: every emitted stream part is bit-exact: `mjpeg_part` equals the
specification's decomposition (boundary marker, `Content-Type` header,
`Content-Length` header whose decimal value is the encoded byte length,
blank line, raw bytes, trailing line break) for every JPEG, and a run of
the loop emits exactly one such part per frame until the run ends. -/
theorem stream_part_format (env : CamEnv) (fps : ℚ) (q : Nat) (n : Nat)
    (raws : Nat → List (Nat × Nat × Nat)) (jpgs : Nat → ByteSeq)
    (h : ∀ j, j < n → env.capture j = Except.ok (raws j)
        ∧ env.encode (bgr_to_rgb (raws j)) q = Except.ok (jpgs j)) :
    (∀ jpg : ByteSeq, mjpeg_part jpg = spec_part jpg)
    ∧ (mjpeg_run env fps q n).1.frames
        = (List.range n).map (fun j => spec_part (jpgs j)) := by
  refine ⟨mjpeg_part_eq_spec_part, ?_⟩
  have h0 : ∀ j, j < n → env.capture (0 + j) = Except.ok (raws (0 + j))
      ∧ env.encode (bgr_to_rgb (raws (0 + j))) q = Except.ok (jpgs (0 + j)) := by
    intro j hj
    simpa using h j hj
  obtain ⟨-, h2, -, -⟩ := mjpeg_loop_ok env (1 / fps) q raws jpgs n 0
    { next_time := env.now 0, clock_idx := 1, frames := [], sleeps := [], heartbeats := 0 } h0
  simp only [mjpeg_run]
  rw [h2]
  simp [mjpeg_part_eq_spec_part]

/-- An environment whose encoder always produces the two-byte JPEG `[1, 2]`. -/
def env_two_bytes : CamEnv :=
  { capture := fun _ => Except.ok [], encode := fun _ _ => Except.ok [1, 2], now := fun _ => 0 }

theorem stream_part_format_witness :
    (∀ jpg : ByteSeq, mjpeg_part jpg = spec_part jpg)
    ∧ (mjpeg_run env_two_bytes 8 80 2).1.frames
        = (List.range 2).map (fun _ => spec_part [1, 2]) :=
  stream_part_format env_two_bytes 8 80 2 (fun _ => []) (fun _ => [1, 2])
    (fun _ _ => ⟨rfl, rfl⟩)

/-- C10: schedule-based pacing.  `next_time` is initialized to the
current time (the `n = 0` conjunct), after each delivered frame it is
advanced by exactly `1 / target_fps` (so after `n` frames it is the
initial reading plus `n / target_fps`, independent of the later clock
readings — jitter does not accumulate), and every performed sleep
duration `next_time - now` is positive. -/
theorem pacing_schedule (env : CamEnv) (fps : ℚ) (q : Nat) (n : Nat)
    (raws : Nat → List (Nat × Nat × Nat)) (jpgs : Nat → ByteSeq)
    (h : ∀ j, j < n → env.capture j = Except.ok (raws j)
        ∧ env.encode (bgr_to_rgb (raws j)) q = Except.ok (jpgs j)) :
    (mjpeg_run env fps q 0).1.next_time = env.now 0
    ∧ (mjpeg_run env fps q n).1.next_time = env.now 0 + n * (1 / fps)
    ∧ (∀ x ∈ (mjpeg_run env fps q n).1.sleeps, 0 < x) := by
  have h0 : ∀ j, j < n → env.capture (0 + j) = Except.ok (raws (0 + j))
      ∧ env.encode (bgr_to_rgb (raws (0 + j))) q = Except.ok (jpgs (0 + j)) := by
    intro j hj
    simpa using h j hj
  obtain ⟨-, -, h3, h4⟩ := mjpeg_loop_ok env (1 / fps) q raws jpgs n 0
    { next_time := env.now 0, clock_idx := 1, frames := [], sleeps := [], heartbeats := 0 } h0
  refine ⟨rfl, ?_, ?_⟩
  · simpa [mjpeg_run] using h3
  · intro x hx
    have hx0 : x ∈ (mjpeg_loop env (1 / fps) q n 0
        { next_time := env.now 0, clock_idx := 1, frames := [], sleeps := [],
          heartbeats := 0 }).1.sleeps := by
      simpa [mjpeg_run] using hx
    rcases h4 x hx0 with hmem | hpos
    · simp at hmem
    · exact hpos

theorem pacing_schedule_witness :
    (mjpeg_run env_ok 8 80 0).1.next_time = env_ok.now 0
    ∧ (mjpeg_run env_ok 8 80 3).1.next_time = env_ok.now 0 + (3 : ℚ) * (1 / 8)
    ∧ (∀ x ∈ (mjpeg_run env_ok 8 80 3).1.sleeps, 0 < x) := by
  have h := pacing_schedule env_ok 8 80 3 (fun _ => []) (fun _ => []) (fun _ _ => ⟨rfl, rfl⟩)
  exact ⟨h.1, by exact_mod_cast h.2.1, h.2.2⟩

/-- An environment whose capture succeeds at iteration 0 and raises from
iteration 1 on. -/
def env_fail_capture : CamEnv :=
  { capture := fun k => if k = 0 then Except.ok [] else Except.error "CameraError",
    encode := fun _ _ => Except.ok [],
    now := fun _ => 0 }

/-- C6 counterexample: the claim says a transient capture failure skips
only that delivery attempt and the loop continues to the next scheduled
attempt.  With capture succeeding at iteration 0 and raising at iteration
1, over a horizon of 4 scheduled attempts the run instead ends at the
failure with the exception propagating (`some "CameraError"`) and only
the single earlier part ever yielded — the loop did not continue. -/
theorem capture_failure_kills_loop :
    (mjpeg_run env_fail_capture 8 80 4).2 = some "CameraError"
    ∧ ((mjpeg_run env_fail_capture 8 80 4).1.frames).length = 1 := by
  have h := mjpeg_loop_fail env_fail_capture (1 / 8) 80 (fun _ => []) (fun _ => []) 1 4 0
    { next_time := env_fail_capture.now 0, clock_idx := 1, frames := [], sleeps := [],
      heartbeats := 0 }
    "CameraError" (by omega)
    (fun i hi => by
      have hi0 : i = 0 := by omega
      subst hi0
      exact ⟨rfl, rfl⟩)
    (Or.inl rfl)
  simpa [mjpeg_run] using h

/-- C6 (amended): a capture or encode failure during one iteration of the
frame loop is not skipped: the exception propagates out of the generator
immediately, the run ends with exactly the earlier iterations' parts
yielded, and no further delivery attempts are made (the consumer's
loop-boundary handler then stops the session, app.py:264-268). -/
theorem frame_fault_terminates_loop (env : CamEnv) (fps : ℚ) (q : Nat)
    (raws : Nat → List (Nat × Nat × Nat)) (jpgs : Nat → ByteSeq)
    (n k : Nat) (e : String) (hk : k < n)
    (hpre : ∀ i, i < k → env.capture i = Except.ok (raws i)
        ∧ env.encode (bgr_to_rgb (raws i)) q = Except.ok (jpgs i))
    (hfail : env.capture k = Except.error e
      ∨ ∃ raw, env.capture k = Except.ok raw
          ∧ env.encode (bgr_to_rgb raw) q = Except.error e) :
    (mjpeg_run env fps q n).2 = some e
    ∧ ((mjpeg_run env fps q n).1.frames).length = k := by
  have hpre0 : ∀ i, i < k → env.capture (0 + i) = Except.ok (raws (0 + i))
      ∧ env.encode (bgr_to_rgb (raws (0 + i))) q = Except.ok (jpgs (0 + i)) := by
    intro i hi
    simpa using hpre i hi
  have hfail0 : env.capture (0 + k) = Except.error e
      ∨ ∃ raw, env.capture (0 + k) = Except.ok raw
          ∧ env.encode (bgr_to_rgb raw) q = Except.error e := by
    simpa using hfail
  have h := mjpeg_loop_fail env (1 / fps) q raws jpgs k n 0
    { next_time := env.now 0, clock_idx := 1, frames := [], sleeps := [], heartbeats := 0 }
    e hk hpre0 hfail0
  simpa [mjpeg_run] using h

theorem frame_fault_terminates_loop_witness :
    (mjpeg_run env_fail_capture 8 80 3).2 = some "CameraError"
    ∧ ((mjpeg_run env_fail_capture 8 80 3).1.frames).length = 1 :=
  frame_fault_terminates_loop env_fail_capture 8 80 (fun _ => []) (fun _ => []) 3 1
    "CameraError" (by omega)
    (fun i hi => by
      have hi0 : i = 0 := by omega
      subst hi0
      exact ⟨rfl, rfl⟩)
    (Or.inl rfl)

end PiServer
